import Mathlib

/-!
# GeoPay-Protocol: verification of the Adaptive Routing & Resilience Engine

Shallow embedding of the routing/resilience core of the GeoPay-Protocol
repository, together with proofs and refutations of the behavioural claims
made by its natural-language specification.

Embedded components (each definition is translated from the named source):
* `Cache` (src/cache/index.ts) — TTL cache: `get`, `set`, `prune`,
  `evictOldest`.
* `filterQuotes` / `checkQuote` (src/routing/filter.ts) — eligibility gates.
* `scoreQuotes` (src/routing/scorer.ts) — weighted scoring and ranking.
* `CircuitBreaker` (src/circuit-breaker/index.ts) — failure state machine:
  `execute`, `recordSuccess`, `recordFailure`, `transitionTo`.
* `IdempotencyManager` (idempotency module) — `check`, `startProcessing`,
  `complete`, `fail`, `execute` over an in-memory store.
* `GeoPaySwitch.pay` (client.ts) — the fallback loop, with the external
  Layer-403 gateway abstracted as an oracle `PayRequest → GwOutcome` and the
  sequence of gateway pay calls recorded as an explicit trace.

Modelling conventions: machine numbers of the source (amounts, costs, rates)
are rationals `ℚ`; `Date.now()` timestamps are naturals `Nat`, passed
explicitly to every operation that reads the clock; JavaScript `Map`s are
association lists in insertion order; `undefined`-able fields are `Option`;
thrown exceptions are `Except`/inductive error results.  Wall-clock-only
record fields (ISO timestamp strings, durations) and human-readable
formatted strings (`reasons`, `details` messages) are elided: no claim
reads them.
-/

namespace GeoPay

/-! ## Quote cache (src/cache/index.ts) -/

/-- JavaScript `Map.set` on a map in insertion order: replace the existing
binding in place, else append. -/
def jsMapSet {β : Type} (s : List (String × β)) (k : String) (v : β) :
    List (String × β) :=
  if (s.find? (fun p => p.1 == k)).isSome then
    s.map (fun p => if p.1 == k then (k, v) else p)
  else
    s ++ [(k, v)]

/-- `CacheEntry<T>`: value with expiry and creation timestamps. -/
structure CacheEntry (V : Type) where
  value : V
  expiresAt : Nat
  createdAt : Nat
  deriving DecidableEq

/-- The `Cache` class state: TTL/config plus the backing `Map` in insertion
order. -/
structure CacheState (V : Type) where
  ttlMs : Nat
  maxEntries : Nat
  store : List (String × CacheEntry V)
  deriving DecidableEq

namespace CacheState

variable {V : Type}

/-- `this.store.get(key)` on a JavaScript `Map`: first binding with the key. -/
def lookup (c : CacheState V) (k : String) : Option (CacheEntry V) :=
  (c.store.find? (fun p => p.1 == k)).map Prod.snd

/-- `Cache.get(key)`: absent if missing; if present but past `expiresAt` at
time `now`, delete the entry and report absent; otherwise return the value.
Returns the value read together with the updated store. -/
def get (c : CacheState V) (k : String) (now : Nat) :
    Option V × CacheState V :=
  match c.lookup k with
  | none => (none, c)
  | some e =>
    if now > e.expiresAt then
      (none, { c with store := c.store.filter (fun p => p.1 != k) })
    else
      (some e.value, c)

/-- `Cache.prune()`: delete every entry past its `expiresAt` and return the
count removed. -/
def prune (c : CacheState V) (now : Nat) : Nat × CacheState V :=
  ((c.store.filter (fun p => now > p.2.expiresAt)).length,
   { c with store := c.store.filter (fun p => !(now > p.2.expiresAt)) })

/-- `Cache.evictOldest()`: prune expired entries first; if still at capacity,
delete the single entry with the smallest `createdAt` (first wins on ties,
matching the source's strict `<` scan). -/
def evictOldest (c : CacheState V) (now : Nat) : CacheState V :=
  let c' := (c.prune now).2
  if c'.store.length ≥ c.maxEntries then
    match c'.store.foldl
        (fun best p =>
          match best with
          | none => some p
          | some b => if p.2.createdAt < b.2.createdAt then some p else best)
        none with
    | some oldest => { c' with store := c'.store.filter (fun p => p.1 != oldest.1) }
    | none => c'
  else c'

/-- `Cache.set(key, value, ttlMs?)`: evict if at capacity, then bind `key` to
a fresh entry expiring at `now + (ttlMs ?? this.ttlMs)`. -/
def set (c : CacheState V) (k : String) (v : V) (ttlMs? : Option Nat)
    (now : Nat) : CacheState V :=
  let c₁ := if c.store.length ≥ c.maxEntries then c.evictOldest now else c
  { c₁ with
    store := jsMapSet c₁.store k ⟨v, now + (ttlMs?.getD c.ttlMs), now⟩ }

end CacheState

/-! ## Data model (src/types) -/

/-- `RegionLimits` (src/types/quote.ts): min/max transaction amount and the
optional remaining daily volume. -/
structure RegionLimits where
  min : ℚ
  max : ℚ
  remainingDaily : Option ℚ
  deriving DecidableEq

/-- `RegionQuote` (src/types/quote.ts).  `reasons` (human-readable strings
assembled by `generateReasons`) is elided; the fee breakdown components are
elided since only `totalCost` is read by routing.  `score` is the mutable
slot assigned by the scoring engine. -/
structure RegionQuote where
  region : String
  routerId : String
  totalCost : ℚ
  limits : RegionLimits
  successRate : Option ℚ
  latencyMs : Option ℚ
  available : Bool
  unavailableReason : Option String
  supportedMethods : List String
  score : ℚ
  deriving DecidableEq

/-- The fields of `PaymentIntent` read by the routing engine. -/
structure PaymentIntent where
  id : String
  amount : ℚ
  currency : String
  paymentMethod : String
  deriving DecidableEq

/-- `RoutingConfig` fields read by the filter engine.  An `undefined` list in
the source behaves exactly like an empty one (both skip the gate), so the
optional arrays are embedded as plain lists. -/
structure RoutingConfig where
  allowedRegions : List String
  blockedRegions : List String
  deriving DecidableEq

/-! ## Filter engine (src/routing/filter.ts) -/

/-- `FilterReason` (src/routing/filter.ts). -/
inductive FilterReason where
  | region_not_allowed
  | region_blocked
  | amount_below_min
  | amount_above_max
  | daily_limit_exceeded
  | method_not_supported
  | region_unavailable
  | compliance_blocked
  | currency_not_supported
  deriving DecidableEq

/-- The daily-limit condition of `checkQuote`:
`remainingDaily !== undefined && intent.amount > remainingDaily`. -/
def dailyLimitHit (quote : RegionQuote) (intent : PaymentIntent) : Bool :=
  match quote.limits.remainingDaily with
  | some d => intent.amount > d
  | none => false

/-- `checkQuote` (src/routing/filter.ts): the chain of early-return gates, in
source order.  Returns `none` when the quote passes, or the reason of the
gate that rejected it.  The trailing compliance block of the source is an
empty placeholder and rejects nothing. -/
def checkQuote (quote : RegionQuote) (intent : PaymentIntent)
    (routingConfig : RoutingConfig) : Option FilterReason :=
  if !quote.available then
    some .region_unavailable
  else if routingConfig.allowedRegions ≠ [] ∧
      quote.region ∉ routingConfig.allowedRegions then
    some .region_not_allowed
  else if routingConfig.blockedRegions ≠ [] ∧
      quote.region ∈ routingConfig.blockedRegions then
    some .region_blocked
  else if intent.amount < quote.limits.min then
    some .amount_below_min
  else if intent.amount > quote.limits.max then
    some .amount_above_max
  else if dailyLimitHit quote intent then
    some .daily_limit_exceeded
  else if quote.supportedMethods ≠ [] ∧
      intent.paymentMethod ∉ quote.supportedMethods then
    some .method_not_supported
  else
    none

/-- `filterQuotes` (src/routing/filter.ts): split the quote list into
`passed` and `filtered` (quote paired with its single reason). -/
def filterQuotes (quotes : List RegionQuote) (intent : PaymentIntent)
    (routingConfig : RoutingConfig) :
    List RegionQuote × List (RegionQuote × FilterReason) :=
  quotes.foldl
    (fun acc quote =>
      match checkQuote quote intent routingConfig with
      | none => (acc.1 ++ [quote], acc.2)
      | some r => (acc.1, acc.2 ++ [(quote, r)]))
    ([], [])

/-- Modelled from the spec (§4.2): the gate list in the spec's fixed order,
each gate a boolean failure condition paired with its reason.  Used to state
that `checkQuote` reports exactly the first failing gate. -/
def specGates (quote : RegionQuote) (intent : PaymentIntent)
    (cfg : RoutingConfig) : List (Bool × FilterReason) :=
  [ (!quote.available, .region_unavailable),
    (decide (cfg.allowedRegions ≠ [] ∧ quote.region ∉ cfg.allowedRegions),
      .region_not_allowed),
    (decide (cfg.blockedRegions ≠ [] ∧ quote.region ∈ cfg.blockedRegions),
      .region_blocked),
    (decide (intent.amount < quote.limits.min), .amount_below_min),
    (decide (intent.amount > quote.limits.max), .amount_above_max),
    (dailyLimitHit quote intent, .daily_limit_exceeded),
    (decide (quote.supportedMethods ≠ [] ∧
      intent.paymentMethod ∉ quote.supportedMethods), .method_not_supported) ]

/-- Modelled from the spec (§4.2): evaluate the gates in order and stop at
the first failing one; pass when none fails. -/
def firstFailingGate (gates : List (Bool × FilterReason)) :
    Option FilterReason :=
  (gates.find? (fun g => g.1)).map Prod.snd

/-! ## Scoring engine (src/routing/scorer.ts) -/

/-- `RoutingWeights` (src/types/config.ts). -/
structure RoutingWeights where
  price : ℚ
  success : ℚ
  latency : ℚ
  deriving DecidableEq

/-- `Math.min(...xs)` over a non-empty list given as head and tail. -/
def listMin (x : ℚ) (xs : List ℚ) : ℚ := xs.foldl min x

/-- `Math.max(...xs)` over a non-empty list given as head and tail. -/
def listMax (x : ℚ) (xs : List ℚ) : ℚ := xs.foldl max x

/-- The normalization ranges of `ScoringMeta`. -/
structure ScoringRanges where
  costMin : ℚ
  costMax : ℚ
  successMin : ℚ
  successMax : ℚ
  latencyMin : ℚ
  latencyMax : ℚ
  deriving DecidableEq

/-- `normalize` (src/routing/scorer.ts): rescale into `[0,1]`; a degenerate
range (`max == min`) normalizes to `0`. -/
def normalize (value minV maxV : ℚ) : ℚ :=
  if maxV = minV then 0 else (value - minV) / (maxV - minV)

/-- `calculatePenalties` (src/routing/scorer.ts): surcharge for running near
the daily limit, for a low success rate, and for high latency. -/
def calculatePenalties (quote : RegionQuote) : ℚ :=
  (match quote.limits.remainingDaily with
   | some d =>
     let limitUsed : ℚ := 1 - d / quote.limits.max
     if limitUsed > 8/10 then (1/10) * (limitUsed - 8/10) * 5 else 0
   | none => 0)
  + (match quote.successRate with
     | some sr => if sr < 8/10 then (8/10 - sr) * (2/10) else 0
     | none => 0)
  + (match quote.latencyMs with
     | some lat => if lat > 500 then 5/100 else 0
     | none => 0)

/-- `calculateScore` (src/routing/scorer.ts): weighted sum of the normalized
cost, inverted normalized success rate (default `0.9`) and normalized latency
(default `100`), plus penalties, clamped to `[0,1]`. -/
def calculateScore (quote : RegionQuote) (weights : RoutingWeights)
    (ranges : ScoringRanges) : ℚ :=
  let normalizedCost := normalize quote.totalCost ranges.costMin ranges.costMax
  let successRate := quote.successRate.getD (9/10)
  let normalizedSuccessInverted :=
    1 - normalize successRate ranges.successMin ranges.successMax
  let latency := quote.latencyMs.getD 100
  let normalizedLatency := normalize latency ranges.latencyMin ranges.latencyMax
  let score := weights.price * normalizedCost
    + weights.success * normalizedSuccessInverted
    + weights.latency * normalizedLatency
    + calculatePenalties quote
  max 0 (min 1 score)

/-- `ScoringResult` (src/routing/scorer.ts), without the meta echo of the
inputs. -/
structure ScoringResult where
  quotes : List RegionQuote
  best : Option RegionQuote
  deriving DecidableEq

/-- `scoreQuotes` (src/routing/scorer.ts): empty input yields an empty
result with no best quote; otherwise compute the normalization ranges over
the quote set, assign each quote its score, and sort ascending by score
(`Array.prototype.sort` with comparator `a.score - b.score`; stable, embedded
as a stable merge sort).  `best` is the first ranked quote. -/
def scoreQuotes (quotes : List RegionQuote) (weights : RoutingWeights) :
    ScoringResult :=
  match quotes with
  | [] => { quotes := [], best := none }
  | q :: qs =>
    let costs := (q :: qs).map (fun x => x.totalCost)
    let successRates := (q :: qs).map (fun x => x.successRate.getD (9/10))
    let latencies := (q :: qs).map (fun x => x.latencyMs.getD 100)
    let ranges : ScoringRanges :=
      { costMin := listMin (costs.headD 0) costs.tail
        costMax := listMax (costs.headD 0) costs.tail
        successMin := listMin (successRates.headD 0) successRates.tail
        successMax := listMax (successRates.headD 0) successRates.tail
        latencyMin := listMin (latencies.headD 0) latencies.tail
        latencyMax := listMax (latencies.headD 0) latencies.tail }
    let scoredQuotes := (q :: qs).map
      (fun quote => { quote with score := calculateScore quote weights ranges })
    let sorted := scoredQuotes.mergeSort (fun a b => a.score ≤ b.score)
    { quotes := sorted, best := sorted.head? }

/-! ## Circuit breaker (src/circuit-breaker/index.ts) -/

/-- `CircuitState`.  The source's `"open"` is spelled `opened` because `open`
is reserved in Lean. -/
inductive CircuitState where
  | closed
  | opened
  | halfOpen
  deriving DecidableEq

/-- The numeric fields of `CircuitBreakerConfig` (with the source defaults
applied by the constructor where the caller omits them).  The `isFailure`
classifier is a function and is passed separately to `breakerExecute`; the
transition callbacks, fallback and monitor timer are elided. -/
structure BreakerConfig where
  failureThreshold : Nat
  resetTimeoutMs : Nat
  successThreshold : Nat
  rollingWindowMs : Nat
  deriving DecidableEq

/-- `CircuitCall`: one rolling-window record (`duration`/`error` elided). -/
structure CircuitCallRec where
  timestamp : Nat
  success : Bool
  deriving DecidableEq

/-- The mutable state of one `CircuitBreaker` instance. -/
structure BreakerState where
  state : CircuitState
  calls : List CircuitCallRec
  consecutiveSuccesses : Nat
  consecutiveFailures : Nat
  lastFailureTime : Option Nat
  lastSuccessTime : Option Nat
  openedAt : Option Nat
  deriving DecidableEq

/-- The initial breaker state: `closed`, no history. -/
def initialBreaker : BreakerState :=
  { state := .closed, calls := [], consecutiveSuccesses := 0,
    consecutiveFailures := 0, lastFailureTime := none, lastSuccessTime := none,
    openedAt := none }

namespace BreakerState

/-- `cleanupOldCalls`: drop records older than the rolling window. -/
def cleanupOldCalls (cfg : BreakerConfig) (s : BreakerState) (now : Nat) :
    BreakerState :=
  { s with calls := s.calls.filter (fun c => c.timestamp ≥ now - cfg.rollingWindowMs) }

/-- `transitionTo`: no-op on a transition to the same state; entering `open`
stamps `openedAt`, entering `closed` clears `openedAt` and
`consecutiveFailures`.  The scheduled half-open timer and the transition
callbacks are elided (the half-open transition is taken lazily by
`breakerExecute`, as §9 of the spec allows). -/
def transitionTo (s : BreakerState) (newState : CircuitState) (now : Nat) :
    BreakerState :=
  if s.state = newState then s
  else
    match newState with
    | .opened => { s with state := newState, openedAt := some now }
    | .halfOpen => { s with state := newState }
    | .closed =>
      { s with state := newState, openedAt := none, consecutiveFailures := 0 }

/-- `recordSuccess`: push a success record, bump the consecutive-success
counter, reset consecutive failures, prune the window, and close the circuit
when half-open and the success threshold is reached. -/
def recordSuccess (cfg : BreakerConfig) (s : BreakerState) (now : Nat) :
    BreakerState :=
  let s₁ := { s with
    calls := s.calls ++ [⟨now, true⟩],
    consecutiveSuccesses := s.consecutiveSuccesses + 1,
    consecutiveFailures := 0,
    lastSuccessTime := some now }
  let s₂ := cleanupOldCalls cfg s₁ now
  if s₂.state = .halfOpen ∧ s₂.consecutiveSuccesses ≥ cfg.successThreshold then
    transitionTo s₂ .closed now
  else s₂

/-- `recordFailure`: push a failure record, bump the consecutive-failure
counter, reset consecutive successes, prune the window, and open the circuit
from `half-open` on any failure or from `closed` once the windowed failure
count reaches the threshold. -/
def recordFailure (cfg : BreakerConfig) (s : BreakerState) (now : Nat) :
    BreakerState :=
  let s₁ := { s with
    calls := s.calls ++ [⟨now, false⟩],
    consecutiveFailures := s.consecutiveFailures + 1,
    consecutiveSuccesses := 0,
    lastFailureTime := some now }
  let s₂ := cleanupOldCalls cfg s₁ now
  if s₂.state = .halfOpen then
    transitionTo s₂ .opened now
  else if s₂.state = .closed ∧
      (s₂.calls.filter (fun c => !c.success)).length ≥ cfg.failureThreshold then
    transitionTo s₂ .opened now
  else s₂

/-- `shouldAttemptReset`: true when `openedAt` is unset (the source's falsy
check also treats a `0` timestamp as unset) or the reset timeout has elapsed
since the circuit opened. -/
def shouldAttemptReset (cfg : BreakerConfig) (s : BreakerState) (now : Nat) :
    Bool :=
  match s.openedAt with
  | none => true
  | some t => if t = 0 then true else t + cfg.resetTimeoutMs ≤ now

end BreakerState

/-- The outcome of the wrapped function `fn`, as observed at the
`try`/`catch` of `execute`: either a returned value or a thrown error. -/
inductive FnOutcome (ε α : Type) where
  | ok (a : α)
  | threw (e : ε)
  deriving DecidableEq

/-- What `execute` does for the caller: return `fn`'s value, rethrow `fn`'s
error, or (while open, before the reset timeout) skip `fn` and run the
fallback — the default fallback throws `CircuitOpenError`, embedded as
`circuitOpen`. -/
inductive ExecResult (ε α : Type) where
  | ok (a : α)
  | err (e : ε)
  | circuitOpen
  deriving DecidableEq

/-- `CircuitBreaker.execute`: short-circuit while open unless the reset
timeout has elapsed (then transition to half-open and proceed); otherwise run
`fn`, record a success on return — or on a thrown error that `isFailure`
classifies as not a failure — and a failure otherwise, rethrowing any thrown
error either way. -/
def breakerExecute {ε α : Type} (cfg : BreakerConfig) (isFailure : ε → Bool)
    (s : BreakerState) (now : Nat) (fn : FnOutcome ε α) :
    ExecResult ε α × BreakerState :=
  if s.state = .opened ∧ ¬ s.shouldAttemptReset cfg now then
    (.circuitOpen, s)
  else
    let s₁ := if s.state = .opened then s.transitionTo .halfOpen now else s
    match fn with
    | .ok a => (.ok a, s₁.recordSuccess cfg now)
    | .threw e =>
      if isFailure e then (.err e, s₁.recordFailure cfg now)
      else (.err e, s₁.recordSuccess cfg now)

/-! ## Idempotency manager (idempotency module) -/

/-- `IdempotencyRecord.status`. -/
inductive IdemStatus where
  | processing
  | completed
  | failed
  deriving DecidableEq

/-- `IdempotencyRecord`.  `response` holds the cached success response; the
error payload stored by `fail` is elided (no flow reads it back). -/
structure IdemRecord (V : Type) where
  key : String
  requestHash : String
  response : Option V
  status : IdemStatus
  createdAt : Nat
  completedAt : Option Nat
  expiresAt : Nat
  lockedUntil : Option Nat
  deriving DecidableEq

/-- The `MemoryStorage` map, in insertion order. -/
def IdemStore (V : Type) := List (String × IdemRecord V)

instance (V : Type) [DecidableEq V] : DecidableEq (IdemStore V) := by
  unfold IdemStore; infer_instance

/-- `MemoryStorage.get`: absent if missing; expired records are deleted on
read and reported absent. -/
def idemStorageGet {V : Type} (store : IdemStore V) (k : String) (now : Nat) :
    Option (IdemRecord V) × IdemStore V :=
  match (List.find? (fun p => p.1 == k) store).map Prod.snd with
  | none => (none, store)
  | some r =>
    if now > r.expiresAt then
      (none, List.filter (fun p => p.1 != k) store)
    else
      (some r, store)

/-- The numeric knobs of `IdempotencyConfig` (source defaults: 24h TTL, 60s
lock). -/
structure IdemConfig where
  ttlMs : Nat
  lockTimeoutMs : Nat
  deriving DecidableEq

/-- `IdempotencyError`, by `code`, carrying the existing record the source
attaches. -/
inductive IdemError (V : Type) where
  | keyMismatch (existing : IdemRecord V)
  | inProgress (existing : IdemRecord V)
  | notFound
  deriving DecidableEq

/-- The result object of `IdempotencyManager.check`. -/
structure CheckRes (V : Type) where
  canProceed : Bool
  existingResponse : Option V
  record : Option (IdemRecord V)
  deriving DecidableEq

/-- `IdempotencyManager.check(key, requestData)`: hash the payload (the
SHA-256 content hash is abstracted as the function parameter `hash`); no
record means proceed; a record under the same key with a different hash is a
hard `KEY_MISMATCH` error; a `completed` record replays its cached response
with `canProceed = false`; a `failed` record allows retry; a `processing`
record with an unexpired lock is an `IN_PROGRESS` error, with an expired
lock it allows retry.  Returns the store as updated by the expiry-pruning
read. -/
def idemCheck {V π : Type} (hash : π → String) (store : IdemStore V)
    (key : String) (payload : π) (now : Nat) :
    Except (IdemError V) (CheckRes V) × IdemStore V :=
  let requestHash := hash payload
  match idemStorageGet store key now with
  | (none, store₁) => (.ok ⟨true, none, none⟩, store₁)
  | (some ex, store₁) =>
    if ex.requestHash ≠ requestHash then
      (.error (.keyMismatch ex), store₁)
    else if ex.status = .completed then
      (.ok ⟨false, ex.response, some ex⟩, store₁)
    else if ex.status = .failed then
      (.ok ⟨true, none, some ex⟩, store₁)
    else
      match ex.lockedUntil with
      | some l =>
        if now < l then (.error (.inProgress ex), store₁)
        else (.ok ⟨true, none, some ex⟩, store₁)
      | none => (.ok ⟨true, none, some ex⟩, store₁)

/-- `IdempotencyManager.startProcessing`: write a fresh `processing` record
with TTL expiry and lock. -/
def idemStartProcessing {V π : Type} (hash : π → String) (cfg : IdemConfig)
    (store : IdemStore V) (key : String) (payload : π) (now : Nat) :
    IdemStore V :=
  jsMapSet store key
    { key := key, requestHash := hash payload, response := none,
      status := .processing, createdAt := now, completedAt := none,
      expiresAt := now + cfg.ttlMs, lockedUntil := some (now + cfg.lockTimeoutMs) }

/-- `IdempotencyManager.complete`: mark the record completed, cache the
response, release the lock; a missing record is a `NOT_FOUND` error. -/
def idemComplete {V : Type} (store : IdemStore V) (key : String)
    (response : V) (now : Nat) : Except (IdemError V) (IdemStore V) :=
  match idemStorageGet store key now with
  | (none, _) => .error .notFound
  | (some ex, store₁) =>
    .ok (jsMapSet store₁ key
      { ex with
        status := .completed, response := some response,
        completedAt := some now, lockedUntil := none })

/-- `IdempotencyManager.fail`: mark the record failed and release the lock;
a missing record is ignored. -/
def idemFail {V : Type} (store : IdemStore V) (key : String) (now : Nat) :
    IdemStore V :=
  match idemStorageGet store key now with
  | (none, store₁) => store₁
  | (some ex, store₁) =>
    jsMapSet store₁ key
      { ex with
        status := .failed, completedAt := some now,
        lockedUntil := none }

/-- What `IdempotencyManager.execute` produces for its caller: the wrapped
function's value (fresh or replayed from the cache), the wrapped function's
rethrown error, or a propagated `IdempotencyError`. -/
inductive IdemExecOutcome (V φ : Type) where
  | ok (v : V)
  | fnErr (e : φ)
  | idem (e : IdemError V)
  deriving DecidableEq

/-- The observable effect of one `IdempotencyManager.execute` call: its
outcome, the store afterwards, and how many times the wrapped function `fn`
was invoked. -/
structure IdemExecTrace (V φ : Type) where
  result : IdemExecOutcome V φ
  store : IdemStore V
  fnCalls : Nat

/-- `IdempotencyManager.execute(key, requestData, fn)`: check; when the check
denies proceeding and a cached response exists, return it without invoking
`fn`; otherwise start processing, invoke `fn` (its outcome is the
`fnOut` parameter), and finalize the record with `complete`/`fail`,
returning `fn`'s value or rethrowing its error.  The whole call is stamped
with one clock reading `now`. -/
def idemExecute {V π φ : Type} (hash : π → String) (cfg : IdemConfig)
    (store : IdemStore V) (key : String) (payload : π)
    (fnOut : Except φ V) (now : Nat) : IdemExecTrace V φ :=
  match idemCheck hash store key payload now with
  | (.error e, st) => ⟨.idem e, st, 0⟩
  | (.ok chk, st) =>
    match chk.canProceed, chk.existingResponse with
    | false, some v => ⟨.ok v, st, 0⟩
    | _, _ =>
      let st₁ := idemStartProcessing hash cfg st key payload now
      match fnOut with
      | .ok v =>
        match idemComplete st₁ key v now with
        | .ok st₂ => ⟨.ok v, st₂, 1⟩
        | .error e => ⟨.idem e, st₁, 1⟩
      | .error e => ⟨.fnErr e, idemFail st₁ key now, 1⟩

/-! ## Payment executor: the fallback loop of `GeoPaySwitch.pay` (client.ts)

The external Layer-403 gateway is abstracted as an oracle
`gw : PayRequest → GwOutcome` giving the outcome of each
`layer403.executePayment` call; the loop records every gateway pay call it
makes in an explicit `trace`.  The route decision (produced by
`decideRoute`, out of scope here) and the `forceRegion` override resolution
are inputs to the loop. -/

/-- The fields of a `GeoPayError` the loop reads (src/types/errors.ts):
`code` and the retryability flag that `createError` derives from
`RETRYABLE_CODES`. -/
structure GeoPayError where
  code : String
  isRetryable : Bool
  deriving DecidableEq

/-- `isRetryableError` (src/types/errors.ts). -/
def isRetryableError (e : GeoPayError) : Bool := e.isRetryable

/-- An error thrown by `layer403.executePayment`.  The loop's `catch` tests
`error instanceof GeoPayException`: `asGeoPay` is that projection (`none`
models a non-`GeoPayException` throw). -/
structure GwError where
  asGeoPay : Option GeoPayError
  deriving DecidableEq

/-- The request of one gateway pay call (`PayRequest`, layer403/client.ts):
the fields the loop chooses per attempt. -/
structure PayRequest where
  region : String
  routerId : String
  idempotencyKey : String
  deriving DecidableEq

/-- One gateway pay call's outcome: a `PaymentResult` (abstracted to an
opaque identifier) or a thrown error. -/
inductive GwOutcome where
  | ok (result : String)
  | err (e : GwError)
  deriving DecidableEq

/-- `PaymentAttempt` (src/types/payment.ts): the fields the loop writes
(ISO timestamp and duration elided). -/
structure PaymentAttempt where
  attemptNumber : Nat
  region : String
  routerId : String
  status : String
  error : Option GeoPayError
  deriving DecidableEq

/-- The fields of `RouteDecision` the loop reads. -/
structure RouteDecision where
  chosenRegion : String
  chosenRouterId : String
  alternatives : List RegionQuote
  deriving DecidableEq

/-- `getNextFallback` (src/routing/strategy.ts): the first alternative whose
region has not already failed and that is available. -/
def getNextFallback (decision : RouteDecision) (failedRegions : List String) :
    Option RegionQuote :=
  decision.alternatives.find?
    (fun alt => !(failedRegions.contains alt.region) && alt.available)

/-- The success value of `pay`: the gateway's `PaymentResult` spread
together with the full attempts log and the base idempotency key. -/
structure PaySuccess where
  gwResult : String
  attempts : List PaymentAttempt
  idempotencyKey : String
  deriving DecidableEq

/-- The errors `pay` can throw out of the loop: a gateway/loop error
rethrown unchanged, or the defensive `INTERNAL_ERROR` after loop exhaustion,
whose `details` carry the attempts log. -/
inductive PayError where
  | fromGateway (e : GwError)
  | internalAfterLoop (attempts : List PaymentAttempt)
  deriving DecidableEq

/-- Which attempts log, if any, the propagated error carries in its details:
only the defensive `INTERNAL_ERROR` constructs `createError(...,
{ attempts })`; a rethrown gateway error is propagated unchanged. -/
def PayError.attemptsInDetails : PayError → Option (List PaymentAttempt)
  | .fromGateway _ => none
  | .internalAfterLoop attempts => some attempts

instance {ε α : Type} [DecidableEq ε] [DecidableEq α] :
    DecidableEq (Except ε α) := fun x y =>
  match x, y with
  | .ok a, .ok b =>
    if h : a = b then .isTrue (by rw [h])
    else .isFalse (by intro hh; cases hh; exact h rfl)
  | .error a, .error b =>
    if h : a = b then .isTrue (by rw [h])
    else .isFalse (by intro hh; cases hh; exact h rfl)
  | .ok _, .error _ => .isFalse (by intro hh; cases hh)
  | .error _, .ok _ => .isFalse (by intro hh; cases hh)

/-- The observable result of one `pay` call: the returned value or thrown
error, the sequence of gateway pay calls made, and the attempts log as last
recorded. -/
structure PayReturn where
  result : Except PayError PaySuccess
  trace : List PayRequest
  attempts : List PaymentAttempt
  deriving DecidableEq

/-- The loop-local mutable variables of `pay`. -/
structure PayLoopState where
  currentRegion : String
  currentRouterId : String
  failedRegions : List String
  attempts : List PaymentAttempt
  trace : List PayRequest
  deriving DecidableEq

/-- The body of `pay`'s `for (attempt = 1; attempt <= maxAttempts; ...)`
loop, recursing on the remaining iteration count `fuel`
(`fuel = maxAttempts - attempt + 1`).  Per iteration: call the gateway with
idempotency key `baseKey ++ "-" ++ attempt`; on success record a succeeded
attempt and return the result with the attempts log; on failure record a
failed attempt, mark the region failed, abort rethrowing the error when it
is not a retryable `GeoPayException`, otherwise move to the next
not-yet-failed available alternative when attempts remain and fallback is
enabled (aborting with the last error when none remains).  Exhausting the
loop raises the defensive `INTERNAL_ERROR` carrying the attempts log.
Backoff sleeps and logging are elided. -/
def payLoopAux (gw : PayRequest → GwOutcome) (baseKey : String)
    (decision : RouteDecision) (fallbackEnabled : Bool) (maxAttempts : Nat) :
    Nat → Nat → PayLoopState → PayReturn
  | _, 0, st => ⟨.error (.internalAfterLoop st.attempts), st.trace, st.attempts⟩
  | attempt, fuel + 1, st =>
    let req : PayRequest :=
      ⟨st.currentRegion, st.currentRouterId, baseKey ++ "-" ++ toString attempt⟩
    let trace := st.trace ++ [req]
    match gw req with
    | .ok res =>
      let attempts := st.attempts ++
        [⟨attempt, st.currentRegion, st.currentRouterId, "succeeded", none⟩]
      ⟨.ok ⟨res, attempts, baseKey⟩, trace, attempts⟩
    | .err e =>
      let geoPayError := e.asGeoPay
      let attempts := st.attempts ++
        [⟨attempt, st.currentRegion, st.currentRouterId, "failed", geoPayError⟩]
      let failedRegions := st.failedRegions ++ [st.currentRegion]
      if (match geoPayError with
          | none => true
          | some g => !(isRetryableError g)) then
        ⟨.error (.fromGateway e), trace, attempts⟩
      else if attempt < maxAttempts ∧ fallbackEnabled then
        match getNextFallback decision failedRegions with
        | some fb =>
          payLoopAux gw baseKey decision fallbackEnabled maxAttempts
            (attempt + 1) fuel
            ⟨fb.region, fb.routerId, failedRegions, attempts, trace⟩
        | none => ⟨.error (.fromGateway e), trace, attempts⟩
      else ⟨.error (.fromGateway e), trace, attempts⟩

/-- `GeoPaySwitch.pay` from the route decision on: loop bound
`maxAttempts = noFallback ? 1 : fallback.maxTries`, starting from the
decision's chosen region and router. -/
def payExecute (gw : PayRequest → GwOutcome) (baseKey : String)
    (decision : RouteDecision) (fallbackEnabled : Bool) (maxTries : Nat)
    (noFallback : Bool) : PayReturn :=
  let maxAttempts := if noFallback then 1 else maxTries
  payLoopAux gw baseKey decision fallbackEnabled maxAttempts 1 maxAttempts
    ⟨decision.chosenRegion, decision.chosenRouterId, [], [], []⟩

/-- Modelled from the spec (§4.6 step 2, §4.5): the same fallback loop but
with every gateway pay call issued *through a Circuit Breaker*, as the spec
prescribes and the source does not do.  The breaker state is threaded
through the attempts; while the breaker is open and the reset timeout has
not elapsed, `execute` short-circuits to the default fallback
(`CircuitOpenError`) *without invoking the gateway*, which the loop's catch
treats as a non-`GeoPayException`, hence a non-retryable abort.  Used only
to witness that the source loop is not breaker-gated. -/
def payLoopSpecCBAux (cfg : BreakerConfig) (gw : PayRequest → GwOutcome)
    (baseKey : String) (decision : RouteDecision) (fallbackEnabled : Bool)
    (maxAttempts : Nat) (now : Nat) :
    Nat → Nat → PayLoopState → BreakerState → PayReturn
  | _, 0, st, _ => ⟨.error (.internalAfterLoop st.attempts), st.trace, st.attempts⟩
  | attempt, fuel + 1, st, bst =>
    let req : PayRequest :=
      ⟨st.currentRegion, st.currentRouterId, baseKey ++ "-" ++ toString attempt⟩
    match breakerExecute cfg (fun (_ : GwError) => true) bst now
        (match gw req with
         | .ok r => .ok r
         | .err e => .threw e) with
    | (.circuitOpen, _) =>
      let attempts := st.attempts ++
        [⟨attempt, st.currentRegion, st.currentRouterId, "failed", none⟩]
      ⟨.error (.fromGateway ⟨none⟩), st.trace, attempts⟩
    | (.ok res, _) =>
      let attempts := st.attempts ++
        [⟨attempt, st.currentRegion, st.currentRouterId, "succeeded", none⟩]
      ⟨.ok ⟨res, attempts, baseKey⟩, st.trace ++ [req], attempts⟩
    | (.err e, bst') =>
      let trace := st.trace ++ [req]
      let geoPayError := e.asGeoPay
      let attempts := st.attempts ++
        [⟨attempt, st.currentRegion, st.currentRouterId, "failed", geoPayError⟩]
      let failedRegions := st.failedRegions ++ [st.currentRegion]
      if (match geoPayError with
          | none => true
          | some g => !(isRetryableError g)) then
        ⟨.error (.fromGateway e), trace, attempts⟩
      else if attempt < maxAttempts ∧ fallbackEnabled then
        match getNextFallback decision failedRegions with
        | some fb =>
          payLoopSpecCBAux cfg gw baseKey decision fallbackEnabled maxAttempts
            now (attempt + 1) fuel
            ⟨fb.region, fb.routerId, failedRegions, attempts, trace⟩ bst'
        | none => ⟨.error (.fromGateway e), trace, attempts⟩
      else ⟨.error (.fromGateway e), trace, attempts⟩

/-- Modelled from the spec: `payExecute` with breaker-gated gateway calls. -/
def payExecuteSpecCB (cfg : BreakerConfig) (bst : BreakerState) (now : Nat)
    (gw : PayRequest → GwOutcome) (baseKey : String)
    (decision : RouteDecision) (fallbackEnabled : Bool) (maxTries : Nat)
    (noFallback : Bool) : PayReturn :=
  let maxAttempts := if noFallback then 1 else maxTries
  payLoopSpecCBAux cfg gw baseKey decision fallbackEnabled maxAttempts now
    1 maxAttempts
    ⟨decision.chosenRegion, decision.chosenRouterId, [], [], []⟩ bst

/-! ## Observation helpers used by the statements -/

/-- The windowed failure count `recordFailure` compares against the
threshold: failures among the calls retained by `cleanupOldCalls` at `now`. -/
def windowedFailures (cfg : BreakerConfig) (calls : List CircuitCallRec)
    (now : Nat) : Nat :=
  ((calls.filter (fun c => c.timestamp ≥ now - cfg.rollingWindowMs)).filter
    (fun c => !c.success)).length

/-- A quote with its mutable scoring slot blanked: scoring rewrites `score`,
so "permutation of the input" is read modulo that slot. -/
def RegionQuote.withoutScore (q : RegionQuote) : RegionQuote :=
  { q with score := 0 }

/-! ## Shared lemmas about insertion-ordered string maps -/

lemma find?_map_replace {β : Type} (k : String) (v : β) :
    ∀ (s : List (String × β)), (s.find? (fun p => p.1 == k)).isSome →
      ((s.map (fun p => if p.1 == k then (k, v) else p)).find?
        (fun p => p.1 == k)) = some (k, v) := by
  intro s
  induction s with
  | nil => simp
  | cons a t ih =>
    intro hsome
    by_cases hak : (a.1 == k) = true
    · rw [List.map_cons, if_pos hak, List.find?_cons]
      simp
    · rw [Bool.not_eq_true] at hak
      rw [List.find?_cons] at hsome
      simp only [hak] at hsome
      rw [List.map_cons, if_neg (by simp [hak]), List.find?_cons]
      simp only [hak]
      exact ih hsome

lemma find?_jsMapSet_self {β : Type} (s : List (String × β)) (k : String)
    (v : β) : (jsMapSet s k v).find? (fun p => p.1 == k) = some (k, v) := by
  unfold jsMapSet
  split
  · exact find?_map_replace k v s (by assumption)
  · rename_i h
    have hn : s.find? (fun p => p.1 == k) = none := by
      cases hfind : s.find? (fun p => p.1 == k) with
      | none => rfl
      | some x => rw [hfind] at h; simp at h
    rw [List.find?_append, hn, List.find?_cons]
    simp

lemma mem_jsMapSet_eq {β : Type} (s : List (String × β)) (k : String) (v : β) :
    ∀ p ∈ jsMapSet s k v, p.1 = k → p = (k, v) := by
  intro p hp hpk
  unfold jsMapSet at hp
  split at hp
  · obtain ⟨q, hq, hfq⟩ := List.mem_map.mp hp
    by_cases hqk : (q.1 == k) = true
    · simpa [hqk] using hfq.symm
    · rw [if_neg (by simp [Bool.not_eq_true] at hqk; simp [hqk])] at hfq
      subst hfq
      exact absurd (by simp [hpk]) hqk
  · rcases List.mem_append.mp hp with h | h
    · rename_i hnone
      have hn : s.find? (fun p => p.1 == k) = none := by
        cases hfind : s.find? (fun p => p.1 == k) with
        | none => rfl
        | some x => rw [hfind] at hnone; simp at hnone
      rw [List.find?_eq_none] at hn
      exact absurd (by simp [hpk]) (hn p h)
    · simpa using h

lemma find?_filter_ne {β : Type} (l : List (String × β)) (k : String) :
    (l.filter (fun p => p.1 != k)).find? (fun p => p.1 == k) = none := by
  rw [List.find?_eq_none]
  intro x hx
  have := (List.mem_filter.mp hx).2
  simpa using this

lemma length_filter_ne_of_find? {β : Type} (k : String) :
    ∀ (l : List (String × β)) (pe : String × β),
      l.find? (fun p => p.1 == k) = some pe → (l.map Prod.fst).Nodup →
      (l.filter (fun p => p.1 != k)).length + 1 = l.length := by
  intro l
  induction l with
  | nil => intro pe h; simp at h
  | cons a t ih =>
    intro pe hfind hnd
    rw [List.map_cons, List.nodup_cons] at hnd
    by_cases hak : (a.1 == k) = true
    · have hk : a.1 = k := by simpa using hak
      have hbne : (a.1 != k) = false := by simp [bne, hak]
      have hnot : ∀ x ∈ t, (x.1 != k) = true := by
        intro x hx
        have hxk : x.1 ≠ k := by
          intro hxk
          exact hnd.1 (hk ▸ hxk ▸ List.mem_map_of_mem Prod.fst hx)
        simpa using hxk
      rw [List.filter_cons, hbne]
      simp only [Bool.false_eq_true, if_false]
      rw [List.filter_eq_self.mpr hnot]
      simp
    · rw [Bool.not_eq_true] at hak
      rw [List.find?_cons] at hfind
      simp only [hak] at hfind
      have hbne : (a.1 != k) = true := by simp [bne, hak]
      rw [List.filter_cons, hbne]
      simp only [if_true, List.length_cons]
      exact congrArg Nat.succ (ih pe hfind hnd.2)

lemma countP_split_of_find? {β : Type} (q : String × β → Bool) (k : String) :
    ∀ (l : List (String × β)) (pe : String × β),
      l.find? (fun p => p.1 == k) = some pe → (l.map Prod.fst).Nodup →
      q pe = true →
      (l.filter q).length =
        ((l.filter (fun p => p.1 != k)).filter q).length + 1 := by
  intro l
  induction l with
  | nil => intro pe h; simp at h
  | cons a t ih =>
    intro pe hfind hnd hq
    rw [List.map_cons, List.nodup_cons] at hnd
    by_cases hak : (a.1 == k) = true
    · have hk : a.1 = k := by simpa using hak
      have hbne : (a.1 != k) = false := by simp [bne, hak]
      rw [List.find?_cons] at hfind
      simp only [hak] at hfind
      have ha : a = pe := by simpa using hfind
      have hnot : ∀ x ∈ t, (x.1 != k) = true := by
        intro x hx
        have hxk : x.1 ≠ k := by
          intro hxk
          exact hnd.1 (hk ▸ hxk ▸ List.mem_map_of_mem Prod.fst hx)
        simpa using hxk
      have hqa : q a = true := ha ▸ hq
      simp only [List.filter_cons, hbne, hqa]
      simp only [Bool.false_eq_true, if_false, if_true, List.length_cons]
      rw [List.filter_eq_self.mpr hnot]
    · rw [Bool.not_eq_true] at hak
      rw [List.find?_cons] at hfind
      simp only [hak] at hfind
      have hbne : (a.1 != k) = true := by simp [bne, hak]
      simp only [List.filter_cons, hbne, if_true]
      by_cases hqa : q a = true
      · simp only [List.filter_cons, hqa, if_true, List.length_cons]
        have := ih pe hfind hnd.2 hq
        omega
      · rw [Bool.not_eq_true] at hqa
        simp only [List.filter_cons, hqa]
        simp only [Bool.false_eq_true, if_false]
        exact ih pe hfind hnd.2 hq

/-! ## Filter engine: C5 -/

lemma filterQuotes_foldl (intent : PaymentIntent) (cfg : RoutingConfig) :
    ∀ (quotes : List RegionQuote)
      (acc : List RegionQuote × List (RegionQuote × FilterReason)),
      quotes.foldl
        (fun acc quote =>
          match checkQuote quote intent cfg with
          | none => (acc.1 ++ [quote], acc.2)
          | some r => (acc.1, acc.2 ++ [(quote, r)])) acc =
      (acc.1 ++ quotes.filter (fun q => (checkQuote q intent cfg).isNone),
       acc.2 ++ quotes.filterMap
         (fun q => (checkQuote q intent cfg).map (fun r => (q, r)))) := by
  intro quotes
  induction quotes with
  | nil => intro acc; simp
  | cons q t ih =>
    intro acc
    rw [List.foldl_cons]
    cases hc : checkQuote q intent cfg with
    | none =>
      simp only [hc]
      rw [ih]
      simp [List.filter_cons, List.filterMap_cons, hc]
    | some r =>
      simp only [hc]
      rw [ih]
      simp [List.filter_cons, List.filterMap_cons, hc]

lemma filterQuotes_eq (quotes : List RegionQuote) (intent : PaymentIntent)
    (cfg : RoutingConfig) :
    filterQuotes quotes intent cfg =
      (quotes.filter (fun q => (checkQuote q intent cfg).isNone),
       quotes.filterMap
         (fun q => (checkQuote q intent cfg).map (fun r => (q, r)))) := by
  unfold filterQuotes
  rw [filterQuotes_foldl]
  simp

/-- C5: `checkQuote` evaluates the gates in the spec's fixed order
(availability, allow-list, block-list, min amount, max amount, daily limit,
supported methods) and reports exactly the first failing gate's reason — in
particular at most one reason per quote; and an unavailable quote is always
filtered with reason `region_unavailable`, for every allow-list and
block-list configuration, and lands in the `filtered` list of `filterQuotes`
with that reason. -/
theorem claim_C5 (quote : RegionQuote) (intent : PaymentIntent)
    (cfg : RoutingConfig) :
    checkQuote quote intent cfg = firstFailingGate (specGates quote intent cfg)
    ∧ (quote.available = false →
        (∀ cfg' : RoutingConfig,
          checkQuote quote intent cfg' = some .region_unavailable)
        ∧ ∀ quotes : List RegionQuote, quote ∈ quotes →
          (quote, FilterReason.region_unavailable) ∈
            (filterQuotes quotes intent cfg).2) := by
  constructor
  · by_cases h1 : quote.available
    · by_cases h2 : cfg.allowedRegions ≠ [] ∧ quote.region ∉ cfg.allowedRegions
      · simp [checkQuote, firstFailingGate, specGates, h1, h2]
      · by_cases h3 : cfg.blockedRegions ≠ [] ∧ quote.region ∈ cfg.blockedRegions
        · simp [checkQuote, firstFailingGate, specGates, h1, h2, h3]
        · by_cases h4 : intent.amount < quote.limits.min
          · simp [checkQuote, firstFailingGate, specGates, h1, h2, h3, h4]
          · by_cases h5 : intent.amount > quote.limits.max
            · simp [checkQuote, firstFailingGate, specGates, h1, h2, h3, h4, h5]
            · by_cases h6 : dailyLimitHit quote intent
              · simp [checkQuote, firstFailingGate, specGates,
                  h1, h2, h3, h4, h5, h6]
              · by_cases h7 : quote.supportedMethods ≠ [] ∧
                  intent.paymentMethod ∉ quote.supportedMethods
                · simp [checkQuote, firstFailingGate, specGates,
                    h1, h2, h3, h4, h5, h6, h7]
                · simp [checkQuote, firstFailingGate, specGates,
                    h1, h2, h3, h4, h5, h6, h7]
    · simp [checkQuote, firstFailingGate, specGates, h1]
  · intro hav
    have hcheck : ∀ cfg' : RoutingConfig,
        checkQuote quote intent cfg' = some .region_unavailable := by
      intro cfg'
      simp [checkQuote, hav]
    refine ⟨hcheck, ?_⟩
    intro quotes hmem
    rw [filterQuotes_eq]
    exact List.mem_filterMap.mpr ⟨quote, hmem, by rw [hcheck cfg]; rfl⟩

/-- Witness for C5 at a concrete unavailable quote (the spec's "Maintenance"
scenario) inside a config that also block-lists it. -/
theorem claim_C5_witness :
    let q : RegionQuote :=
      { region := "EU", routerId := "router_eu_1", totalCost := 3,
        limits := { min := 1, max := 10000, remainingDaily := none },
        successRate := none, latencyMs := none, available := false,
        unavailableReason := some "Maintenance", supportedMethods := [],
        score := 0 }
    let cfg : RoutingConfig := { allowedRegions := [], blockedRegions := ["EU"] }
    let intent : PaymentIntent :=
      { id := "i1", amount := 100, currency := "USD", paymentMethod := "card" }
    q.available = false ∧
      checkQuote q intent cfg = some .region_unavailable ∧
      (q, FilterReason.region_unavailable) ∈ (filterQuotes [q] intent cfg).2 := by
  intro q cfg intent
  refine ⟨rfl, ?_, ?_⟩
  · exact ((claim_C5 q intent cfg).2 rfl).1 cfg
  · exact ((claim_C5 q intent cfg).2 rfl).2 [q] (by simp)

/-! ## Idempotency guard: C8 -/

/-- C8: when an unexpired record exists under `key` whose stored hash
differs from the hash of the incoming payload, `check` raises the hard
`KEY_MISMATCH` conflict (carrying the existing record) and in particular
never returns a result that would expose the cached response or allow the
request to proceed. -/
theorem claim_C8 {V π : Type} (hash : π → String) (store : IdemStore V)
    (key : String) (payload : π) (now : Nat) (rec : IdemRecord V)
    (hrec : (List.find? (fun p => p.1 == key) store).map Prod.snd = some rec)
    (hlive : ¬ now > rec.expiresAt)
    (hhash : rec.requestHash ≠ hash payload) :
    (idemCheck hash store key payload now).1 =
      .error (.keyMismatch rec)
    ∧ ∀ res : CheckRes V, (idemCheck hash store key payload now).1 ≠ .ok res := by
  have hget : idemStorageGet store key now = (some rec, store) := by
    unfold idemStorageGet
    rw [hrec]
    simp [hlive]
  constructor
  · unfold idemCheck
    rw [hget]
    simp [hhash]
  · intro res
    unfold idemCheck
    rw [hget]
    simp [hhash]

/-- Witness for C8: a completed record stored under hash `"hashA"`, probed
with a payload hashing to `"hashB"`. -/
theorem claim_C8_witness :
    let rec0 : IdemRecord String :=
      { key := "k", requestHash := "hashA", response := some "cached",
        status := .completed, createdAt := 0, completedAt := some 1,
        expiresAt := 1000, lockedUntil := none }
    let store : IdemStore String := [("k", rec0)]
    (List.find? (fun p => p.1 == "k") store).map Prod.snd = some rec0
    ∧ rec0.requestHash ≠ (fun s => s) "hashB"
    ∧ (idemCheck (fun s : String => s) store "k" "hashB" 5).1 =
        .error (.keyMismatch rec0) := by
  intro rec0 store
  refine ⟨by decide, by decide, ?_⟩
  exact (claim_C8 (fun s => s) store "k" "hashB" 5 rec0 (by decide) (by decide)
    (by decide)).1

/-! ## Quote cache: C9 (expired `get` deletes) and C6 (round-trip) -/

/-- C9: a `get` on an entry whose expiry has passed returns absent and
deletes the entry as a side effect — the store shrinks by one, the key no
longer resolves — so a later `prune` counts exactly one fewer eviction than
it would have on the untouched cache. -/
theorem claim_C9 {V : Type} (c : CacheState V) (k : String) (e : CacheEntry V)
    (now m : Nat)
    (hnd : (c.store.map Prod.fst).Nodup)
    (hlook : c.lookup k = some e)
    (hexp : now > e.expiresAt)
    (hm : now ≤ m) :
    (c.get k now).1 = none
    ∧ (c.get k now).2.store.length + 1 = c.store.length
    ∧ (c.get k now).2.lookup k = none
    ∧ ((c.get k now).2.prune m).1 + 1 = (c.prune m).1 := by
  obtain ⟨pe, hfind, hsnd⟩ :
      ∃ pe, c.store.find? (fun p => p.1 == k) = some pe ∧ pe.2 = e := by
    cases hf : c.store.find? (fun p => p.1 == k) with
    | none => rw [CacheState.lookup, hf] at hlook; simp at hlook
    | some x =>
      rw [CacheState.lookup, hf] at hlook
      exact ⟨x, rfl, by simpa using hlook⟩
  have hget : c.get k now =
      (none, { c with store := c.store.filter (fun p => p.1 != k) }) := by
    unfold CacheState.get
    rw [hlook]
    simp [hexp]
  refine ⟨by rw [hget], ?_, ?_, ?_⟩
  · rw [hget]
    exact length_filter_ne_of_find? k c.store pe hfind hnd
  · rw [hget]
    unfold CacheState.lookup
    simp only
    rw [find?_filter_ne]
    rfl
  · rw [hget]
    unfold CacheState.prune
    simp only
    have hqpe : (fun p : String × CacheEntry V => decide (m > p.2.expiresAt)) pe
        = true := by
      simp only [hsnd]
      simp only [decide_eq_true_eq]
      omega
    exact (countP_split_of_find?
      (fun p => decide (m > p.2.expiresAt)) k c.store pe hfind hnd hqpe).symm

/-- Witness for C9: a one-entry cache whose entry expired at 100, read at
101 and pruned at 102. -/
theorem claim_C9_witness :
    let e : CacheEntry String := { value := "v", expiresAt := 100, createdAt := 0 }
    let c : CacheState String := { ttlMs := 100, maxEntries := 10, store := [("k", e)] }
    c.lookup "k" = some e
    ∧ (c.get "k" 101).1 = none
    ∧ (c.get "k" 101).2.store.length + 1 = c.store.length
    ∧ ((c.get "k" 101).2.prune 102).1 + 1 = (c.prune 102).1 := by
  intro e c
  have h := claim_C9 c "k" e 101 102 (by decide) (by decide) (by decide)
    (by decide)
  exact ⟨by decide, h.1, h.2.1, h.2.2.2⟩

/-- C6 (amended): after `set(k, v, ttl)` at time `now`, a `get(k)` at or
before `now + ttl` returns `v`; a `get(k)` after `now + ttl` returns absent;
and a `prune` run after `now + ttl` — on the cache as left by `set`, i.e.
with no intervening post-expiry `get(k)` — removes the entry and evicts at
least one entry.  (The original claim's final clause fails when the
post-expiry `get` precedes the `prune`, because that `get` already deletes
the entry: see the counterexample.) -/
theorem claim_C6 {V : Type} (c : CacheState V) (k : String) (v : V)
    (ttl now : Nat) :
    (∀ t, ¬ t > now + ttl → ((c.set k v (some ttl) now).get k t).1 = some v)
    ∧ (∀ t, t > now + ttl → ((c.set k v (some ttl) now).get k t).1 = none)
    ∧ (∀ m, m > now + ttl →
        1 ≤ ((c.set k v (some ttl) now).prune m).1
        ∧ ((c.set k v (some ttl) now).prune m).2.lookup k = none) := by
  have hstore : (c.set k v (some ttl) now).store =
      jsMapSet (if c.store.length ≥ c.maxEntries then
          (c.evictOldest now).store else c.store) k ⟨v, now + ttl, now⟩ := by
    unfold CacheState.set
    split <;> rfl
  have hlook : (c.set k v (some ttl) now).lookup k =
      some ⟨v, now + ttl, now⟩ := by
    unfold CacheState.lookup
    rw [hstore, find?_jsMapSet_self]
    rfl
  refine ⟨?_, ?_, ?_⟩
  · intro t ht
    unfold CacheState.get
    rw [hlook]
    simp only
    rw [if_neg ht]
  · intro t ht
    unfold CacheState.get
    rw [hlook]
    simp only
    rw [if_pos ht]
  · intro m hm
    have hf2 : (c.set k v (some ttl) now).store.find? (fun p => p.1 == k) =
        some (k, (⟨v, now + ttl, now⟩ : CacheEntry V)) := by
      rw [hstore]
      exact find?_jsMapSet_self _ _ _
    have hmem := List.mem_of_find?_eq_some hf2
    constructor
    · unfold CacheState.prune
      simp only
      have hin : (k, (⟨v, now + ttl, now⟩ : CacheEntry V)) ∈
          (c.set k v (some ttl) now).store.filter
            (fun p => decide (m > p.2.expiresAt)) := by
        refine List.mem_filter.mpr ⟨hmem, ?_⟩
        simp only [decide_eq_true_eq]
        omega
      have := List.length_pos.mpr (List.ne_nil_of_mem hin)
      omega
    · unfold CacheState.prune CacheState.lookup
      simp only
      have hfn : List.find? (fun p => p.1 == k)
          (List.filter (fun p => !decide (m > p.2.expiresAt))
            (c.set k v (some ttl) now).store) = none := by
        rw [List.find?_eq_none]
        intro x hx hxk
        have hx' := List.mem_filter.mp hx
        have hxe : x = (k, (⟨v, now + ttl, now⟩ : CacheEntry V)) := by
          refine mem_jsMapSet_eq _ k _ x (hstore ▸ hx'.1) ?_
          simpa using hxk
        have hkeep := hx'.2
        rw [hxe] at hkeep
        simp only [Bool.not_eq_true', decide_eq_false_iff_not] at hkeep
        omega
      rw [hfn]
      rfl

/-- Witness for C6 at a concrete cache: ttl 100, set at 0, read at 50 and
101, pruned (with no intervening expired get) at 102. -/
theorem claim_C6_witness :
    let c : CacheState String := { ttlMs := 100, maxEntries := 10, store := [] }
    (¬ (50 : Nat) > 0 + 100)
    ∧ ((c.set "k" "v" (some 100) 0).get "k" 50).1 = some "v"
    ∧ ((101 : Nat) > 0 + 100)
    ∧ ((c.set "k" "v" (some 100) 0).get "k" 101).1 = none
    ∧ 1 ≤ ((c.set "k" "v" (some 100) 0).prune 102).1 := by
  intro c
  exact ⟨by decide, (claim_C6 c "k" "v" 100 0).1 50 (by decide), by decide,
    (claim_C6 c "k" "v" 100 0).2.1 101 (by decide),
    ((claim_C6 c "k" "v" 100 0).2.2 102 (by decide)).1⟩

/-- C6 counterexample: the claim's sequence `set(k,v,ttl)`, then `get(k)`
after the ttl elapsed, then `prune()`, yields a prune eviction count of `0`,
not `≥ 1` — the expired `get` has already deleted the entry. -/
theorem claim_C6_counterexample :
    let c : CacheState String := { ttlMs := 100, maxEntries := 10, store := [] }
    ((c.set "k" "v" (some 100) 0).get "k" 101).1 = none
    ∧ (((c.set "k" "v" (some 100) 0).get "k" 101).2.store = [])
    ∧ ((((c.set "k" "v" (some 100) 0).get "k" 101).2).prune 102).1 = 0 := by
  intro c
  refine ⟨by decide, by decide, by decide⟩

/-! ## Circuit breaker: C10 and C3 -/

lemma transitionTo_halfOpen_state (s : BreakerState) (now : Nat) :
    (s.transitionTo .halfOpen now).state = .halfOpen := by
  unfold BreakerState.transitionTo
  split <;> simp_all

lemma recordSuccess_fields (cfg : BreakerConfig) (s : BreakerState)
    (now : Nat) :
    (s.recordSuccess cfg now).consecutiveFailures = 0
    ∧ (s.recordSuccess cfg now).consecutiveSuccesses =
        s.consecutiveSuccesses + 1
    ∧ (s.state = .halfOpen →
        cfg.successThreshold ≤ s.consecutiveSuccesses + 1 →
        (s.recordSuccess cfg now).state = .closed)
    ∧ (s.state = .halfOpen →
        s.consecutiveSuccesses + 1 < cfg.successThreshold →
        (s.recordSuccess cfg now).state = .halfOpen) := by
  unfold BreakerState.recordSuccess BreakerState.cleanupOldCalls
    BreakerState.transitionTo
  refine ⟨?_, ?_, ?_, ?_⟩ <;>
    · simp only
      repeat' split
      all_goals simp_all

lemma recordFailure_halfOpen_opens (cfg : BreakerConfig) (s : BreakerState)
    (now : Nat) (h : s.state = .halfOpen) :
    (s.recordFailure cfg now).state = .opened := by
  unfold BreakerState.recordFailure BreakerState.cleanupOldCalls
    BreakerState.transitionTo
  simp only
  repeat' split
  all_goals simp_all

lemma recordFailure_closed_opens (cfg : BreakerConfig) (s : BreakerState)
    (now : Nat) (h : s.state = .closed)
    (hthr : cfg.failureThreshold ≤
      windowedFailures cfg (s.calls ++ [⟨now, false⟩]) now) :
    (s.recordFailure cfg now).state = .opened := by
  unfold BreakerState.recordFailure BreakerState.cleanupOldCalls
    BreakerState.transitionTo
  unfold windowedFailures at hthr
  simp only
  repeat' split
  all_goals simp_all

/-- C10: when the wrapped function throws an error that the configured
`isFailure` predicate classifies as *not* a failure, `execute` records the
call as a success — consecutive failures reset, consecutive successes
incremented, a half-open circuit that reaches its success threshold closes —
and still rethrows the error to the caller: it never swallows an error and
never converts it into a success result. -/
theorem claim_C10 {ε α : Type} (cfg : BreakerConfig) (isFailure : ε → Bool)
    (s : BreakerState) (now : Nat) (e : ε)
    (hopen : s.state = .opened → s.shouldAttemptReset cfg now = true)
    (hclass : isFailure e = false) :
    breakerExecute cfg isFailure s now (.threw e : FnOutcome ε α) =
      (.err e,
        (if s.state = .opened then s.transitionTo .halfOpen now else s
          ).recordSuccess cfg now)
    ∧ (breakerExecute cfg isFailure s now
        (.threw e : FnOutcome ε α)).2.consecutiveFailures = 0
    ∧ (breakerExecute cfg isFailure s now
        (.threw e : FnOutcome ε α)).2.consecutiveSuccesses =
        s.consecutiveSuccesses + 1
    ∧ (s.state = .halfOpen →
        cfg.successThreshold ≤ s.consecutiveSuccesses + 1 →
        (breakerExecute cfg isFailure s now
          (.threw e : FnOutcome ε α)).2.state = .closed)
    ∧ ∀ a : α, (breakerExecute cfg isFailure s now
        (.threw e : FnOutcome ε α)).1 ≠ .ok a := by
  have hnot : ¬(s.state = .opened ∧
      ¬ s.shouldAttemptReset cfg now = true) := by
    rintro ⟨h1, h2⟩
    exact h2 (hopen h1)
  have hr : breakerExecute cfg isFailure s now (.threw e : FnOutcome ε α) =
      (.err e,
        (if s.state = .opened then s.transitionTo .halfOpen now else s
          ).recordSuccess cfg now) := by
    unfold breakerExecute
    rw [if_neg hnot]
    simp [hclass]
  have hs₁cs : (if s.state = .opened then s.transitionTo .halfOpen now
      else s).consecutiveSuccesses = s.consecutiveSuccesses := by
    split
    · unfold BreakerState.transitionTo
      split <;> simp_all
    · rfl
  refine ⟨hr, ?_, ?_, ?_, ?_⟩
  · rw [hr]
    exact (recordSuccess_fields cfg _ now).1
  · rw [hr]
    simp only
    rw [(recordSuccess_fields cfg _ now).2.1, hs₁cs]
  · intro hho hthr
    have hne : ¬ s.state = .opened := by rw [hho]; simp
    rw [hr]
    simp only [if_neg hne]
    exact (recordSuccess_fields cfg s now).2.2.1 hho hthr
  · intro a
    rw [hr]
    simp

/-- Witness for C10: a half-open breaker one success short of its threshold,
wrapped function throwing an error that `isFailure` ignores. -/
theorem claim_C10_witness :
    let cfg : BreakerConfig :=
      { failureThreshold := 5, resetTimeoutMs := 30000,
        successThreshold := 3, rollingWindowMs := 60000 }
    let s : BreakerState :=
      { state := .halfOpen, calls := [], consecutiveSuccesses := 2,
        consecutiveFailures := 0, lastFailureTime := none,
        lastSuccessTime := none, openedAt := none }
    let isF : String → Bool := fun _ => false
    (s.state = .opened → s.shouldAttemptReset cfg 50 = true)
    ∧ isF "boom" = false
    ∧ (breakerExecute cfg isF s 50 (.threw "boom" : FnOutcome String Nat)).1
        = .err "boom"
    ∧ (breakerExecute cfg isF s 50
        (.threw "boom" : FnOutcome String Nat)).2.state = .closed := by
  intro cfg s isF
  have h := @claim_C10 String Nat cfg isF s 50 "boom"
    (by intro hh; simp at hh) rfl
  exact ⟨by intro hh; simp at hh, rfl, by rw [h.1], h.2.2.2.1 rfl (by decide)⟩

lemma breakerExecute_ok_halfOpen (cfg : BreakerConfig) (s : BreakerState)
    (now : Nat) (v : String) (h : s.state = .halfOpen) :
    (breakerExecute cfg (fun _ : GwError => true) s now
      (.ok v : FnOutcome GwError String)).2 = s.recordSuccess cfg now := by
  have hne : ¬(s.state = .opened ∧
      ¬ s.shouldAttemptReset cfg now = true) := by
    rintro ⟨h1, _⟩
    rw [h] at h1
    exact absurd h1 (by simp)
  unfold breakerExecute
  rw [if_neg hne]
  simp [h]

lemma breakerExecute_proceed {ε α : Type} (cfg : BreakerConfig)
    (isF : ε → Bool) (s : BreakerState) (now : Nat) (fn : FnOutcome ε α)
    (h : ¬(s.state = .opened ∧ ¬ s.shouldAttemptReset cfg now = true)) :
    breakerExecute cfg isF s now fn =
      match fn with
      | .ok a => (.ok a,
          (if s.state = .opened then s.transitionTo .halfOpen now else s
            ).recordSuccess cfg now)
      | .threw e =>
        if isF e then
          (.err e,
            (if s.state = .opened then s.transitionTo .halfOpen now else s
              ).recordFailure cfg now)
        else
          (.err e,
            (if s.state = .opened then s.transitionTo .halfOpen now else s
              ).recordSuccess cfg now) := by
  unfold breakerExecute
  rw [if_neg h]

lemma halfOpen_success_run (cfg : BreakerConfig) (now : Nat) (v : String) :
    ∀ (n : Nat) (s : BreakerState), s.state = .halfOpen →
      s.consecutiveSuccesses + n = cfg.successThreshold → 1 ≤ n →
      ((fun st => (breakerExecute cfg (fun _ : GwError => true) st now
        (.ok v : FnOutcome GwError String)).2)^[n] s).state = .closed := by
  intro n
  induction n with
  | zero => intro s _ _ h3; omega
  | succ m ih =>
    intro s hho hcs _
    rw [Function.iterate_succ_apply]
    rcases Nat.eq_zero_or_pos m with hm | hm
    · subst hm
      simp only [Function.iterate_zero, id]
      rw [breakerExecute_ok_halfOpen cfg s now v hho]
      exact (recordSuccess_fields cfg s now).2.2.1 hho (by omega)
    · have hstep : (breakerExecute cfg (fun _ : GwError => true) s now
          (.ok v : FnOutcome GwError String)).2 = s.recordSuccess cfg now :=
        breakerExecute_ok_halfOpen cfg s now v hho
      have hho' : (s.recordSuccess cfg now).state = .halfOpen :=
        (recordSuccess_fields cfg s now).2.2.2 hho (by omega)
      have hcs' : (s.recordSuccess cfg now).consecutiveSuccesses =
          s.consecutiveSuccesses + 1 := (recordSuccess_fields cfg s now).2.1
      simp only [hstep]
      exact ih (s.recordSuccess cfg now) hho' (by omega) hm

/-- C3: the circuit breaker state machine behaves as specified: it starts
closed; a failure recorded while closed that brings the rolling-window
failure count to the threshold opens it; while open with the reset timeout
elapsed, the next call attempt proceeds exactly as from the half-open state
(the lazy open→half-open transition); `successThreshold` consecutive
successful calls from half-open close it; and a single failure recorded in
half-open reopens it. -/
theorem claim_C3 (cfg : BreakerConfig) :
    initialBreaker.state = .closed
    ∧ (∀ (s : BreakerState) (now : Nat), s.state = .closed →
        cfg.failureThreshold ≤
          windowedFailures cfg (s.calls ++ [⟨now, false⟩]) now →
        (s.recordFailure cfg now).state = .opened)
    ∧ (∀ {ε α : Type} (isFailure : ε → Bool) (s : BreakerState) (now : Nat)
        (fn : FnOutcome ε α) (t : Nat), s.state = .opened →
        s.openedAt = some t → t ≠ 0 → t + cfg.resetTimeoutMs ≤ now →
        breakerExecute cfg isFailure s now fn =
          breakerExecute cfg isFailure (s.transitionTo .halfOpen now) now fn
        ∧ (s.transitionTo .halfOpen now).state = .halfOpen)
    ∧ (∀ (s : BreakerState) (now : Nat) (v : String),
        s.state = .halfOpen → s.consecutiveSuccesses = 0 →
        1 ≤ cfg.successThreshold →
        ((fun st => (breakerExecute cfg (fun _ : GwError => true) st now
          (.ok v : FnOutcome GwError String)).2
          )^[cfg.successThreshold] s).state = .closed)
    ∧ (∀ (s : BreakerState) (now : Nat), s.state = .halfOpen →
        (s.recordFailure cfg now).state = .opened) := by
  refine ⟨rfl, ?_, ?_, ?_, ?_⟩
  · intro s now hclosed hthr
    exact recordFailure_closed_opens cfg s now hclosed hthr
  · intro ε α isFailure s now fn t hstate hoa ht0 htime
    have hreset : s.shouldAttemptReset cfg now = true := by
      unfold BreakerState.shouldAttemptReset
      rw [hoa]
      show (if t = 0 then true else decide (t + cfg.resetTimeoutMs ≤ now))
        = true
      rw [if_neg ht0]
      exact decide_eq_true htime
    have hC : ¬ (s.transitionTo .halfOpen now).state = .opened := by
      intro h1
      rw [transitionTo_halfOpen_state] at h1
      exact CircuitState.noConfusion h1
    refine ⟨?_, transitionTo_halfOpen_state s now⟩
    rw [breakerExecute_proceed cfg isFailure s now fn
        (by rintro ⟨_, h2⟩; exact h2 hreset),
      breakerExecute_proceed cfg isFailure (s.transitionTo .halfOpen now)
        now fn (by rintro ⟨h1, _⟩; exact hC h1)]
    simp only [if_pos hstate, if_neg hC]
  · intro s now v hho hcs hthr
    exact halfOpen_success_run cfg now v cfg.successThreshold s hho
      (by omega) hthr
  · intro s now hho
    exact recordFailure_halfOpen_opens cfg s now hho

/-- Witness for C3 at a concrete breaker: threshold 2, reset 1000ms, success
threshold 2. -/
theorem claim_C3_witness :
    let cfg : BreakerConfig :=
      { failureThreshold := 2, resetTimeoutMs := 1000,
        successThreshold := 2, rollingWindowMs := 60000 }
    let sClosed : BreakerState :=
      { state := .closed, calls := [⟨5, false⟩], consecutiveSuccesses := 0,
        consecutiveFailures := 1, lastFailureTime := some 5,
        lastSuccessTime := none, openedAt := none }
    let sOpen : BreakerState :=
      { state := .opened, calls := [], consecutiveSuccesses := 0,
        consecutiveFailures := 2, lastFailureTime := some 10,
        lastSuccessTime := none, openedAt := some 10 }
    let sHalf : BreakerState :=
      { state := .halfOpen, calls := [], consecutiveSuccesses := 0,
        consecutiveFailures := 0, lastFailureTime := none,
        lastSuccessTime := none, openedAt := some 10 }
    initialBreaker.state = .closed
    ∧ cfg.failureThreshold ≤
        windowedFailures cfg (sClosed.calls ++ [⟨6, false⟩]) 6
    ∧ (sClosed.recordFailure cfg 6).state = .opened
    ∧ breakerExecute cfg (fun _ : GwError => true) sOpen 2000
        (.ok "r" : FnOutcome GwError String) =
      breakerExecute cfg (fun _ : GwError => true)
        (sOpen.transitionTo .halfOpen 2000) 2000
        (.ok "r" : FnOutcome GwError String)
    ∧ ((fun st => (breakerExecute cfg (fun _ : GwError => true) st 3000
        (.ok "r" : FnOutcome GwError String)).2)^[2] sHalf).state = .closed
    ∧ (sHalf.recordFailure cfg 3000).state = .opened := by
  intro cfg sClosed sOpen sHalf
  refine ⟨(claim_C3 cfg).1, by decide,
    (claim_C3 cfg).2.1 sClosed 6 rfl (by decide),
    ((claim_C3 cfg).2.2.1 (fun _ : GwError => true) sOpen 2000
      (.ok "r" : FnOutcome GwError String) 10 rfl rfl (by decide)
      (by decide)).1,
    ?_,
    (claim_C3 cfg).2.2.2.2 sHalf 3000 rfl⟩
  exact (claim_C3 cfg).2.2.2.1 sHalf 3000 "r" rfl rfl (by decide)

/-! ## Scoring engine: C4 -/

lemma scoreQuotes_shape (q : RegionQuote) (qs : List RegionQuote)
    (w : RoutingWeights) :
    ∃ f : RegionQuote → ℚ,
      (scoreQuotes (q :: qs) w).quotes =
        ((q :: qs).map (fun x => { x with score := f x })).mergeSort
          (fun a b => a.score ≤ b.score)
      ∧ (scoreQuotes (q :: qs) w).best =
          (scoreQuotes (q :: qs) w).quotes.head? := by
  exact ⟨_, rfl, rfl⟩

/-- C4: on non-empty input, `scoreQuotes` returns the input quotes (up to
the `score` slot it assigns) as a permutation, ordered by non-decreasing
score, with `best` equal to the first element of the returned (non-empty)
list. -/
theorem claim_C4 (quotes : List RegionQuote) (weights : RoutingWeights)
    (h : quotes ≠ []) :
    ((scoreQuotes quotes weights).quotes.map RegionQuote.withoutScore).Perm
      (quotes.map RegionQuote.withoutScore)
    ∧ List.Pairwise (fun a b : RegionQuote => a.score ≤ b.score)
        (scoreQuotes quotes weights).quotes
    ∧ (scoreQuotes quotes weights).best =
        (scoreQuotes quotes weights).quotes.head?
    ∧ (scoreQuotes quotes weights).quotes ≠ [] := by
  cases quotes with
  | nil => exact absurd rfl h
  | cons q qs =>
    obtain ⟨f, hq, hbest⟩ := scoreQuotes_shape q qs weights
    have hperm := List.mergeSort_perm
      ((q :: qs).map (fun x => { x with score := f x }))
      (fun a b => a.score ≤ b.score)
    refine ⟨?_, ?_, hbest, ?_⟩
    · rw [hq]
      have hmap := hperm.map RegionQuote.withoutScore
      rw [List.map_map] at hmap
      have hcomp :
          (RegionQuote.withoutScore ∘ fun x => { x with score := f x }) =
            RegionQuote.withoutScore := by
        funext x
        rfl
      rwa [hcomp] at hmap
    · rw [hq]
      have hsorted := @List.sorted_mergeSort RegionQuote
        (fun a b : RegionQuote => decide (a.score ≤ b.score))
        (by
          intro a b c hab hbc
          simp only [decide_eq_true_eq] at hab hbc ⊢
          exact le_trans hab hbc)
        (by
          intro a b
          simp only [Bool.or_eq_true, decide_eq_true_eq]
          exact le_total a.score b.score)
        ((q :: qs).map (fun x => { x with score := f x }))
      exact hsorted.imp (fun hab => by simpa using hab)
    · rw [hq]
      intro hnil
      have hlen := hperm.length_eq
      rw [hnil] at hlen
      simp at hlen

/-- Witness for C4 at the spec's scenario quotes (EU cost 3, UK cost 2, SG
cost 4) and weights price 1, success 0, latency 0. -/
theorem claim_C4_witness :
    let mk : String → String → ℚ → RegionQuote := fun r rid c =>
      { region := r, routerId := rid, totalCost := c,
        limits := { min := 1, max := 10000, remainingDaily := none },
        successRate := some (95/100), latencyMs := some 120,
        available := true, unavailableReason := none,
        supportedMethods := ["card"], score := 0 }
    let qs := [mk "EU" "r_eu" 3, mk "UK" "r_uk" 2, mk "SG" "r_sg" 4]
    let w : RoutingWeights := { price := 1, success := 0, latency := 0 }
    qs ≠ []
    ∧ ((scoreQuotes qs w).quotes.map RegionQuote.withoutScore).Perm
        (qs.map RegionQuote.withoutScore)
    ∧ (scoreQuotes qs w).best = (scoreQuotes qs w).quotes.head?
    ∧ (scoreQuotes qs w).quotes ≠ [] := by
  intro mk qs w
  have h := claim_C4 qs w (by simp [qs])
  exact ⟨by simp [qs], h.1, h.2.2.1, h.2.2.2⟩

/-! ## Payment executor: C2, C7, C1 -/

lemma range'_one_concat (n : Nat) :
    List.range' 1 (n + 1) = List.range' 1 n ++ [n + 1] := by
  rw [List.range'_concat]
  simp [Nat.add_comm]

lemma payLoopAux_log (gw : PayRequest → GwOutcome) (baseKey : String)
    (decision : RouteDecision) (fallbackEnabled : Bool) (maxAttempts : Nat) :
    ∀ (fuel : Nat) (st : PayLoopState),
      st.trace.map (fun p => p.idempotencyKey) =
        (List.range' 1 st.trace.length).map
          (fun i => baseKey ++ "-" ++ toString i) →
      st.attempts.map (fun a => a.attemptNumber) =
        List.range' 1 st.trace.length →
      st.attempts.length = st.trace.length →
      (∀ a ∈ st.attempts, a.status = "succeeded" ∨ a.status = "failed") →
      ∀ r : PayReturn,
        r = payLoopAux gw baseKey decision fallbackEnabled maxAttempts
          (st.trace.length + 1) fuel st →
        r.trace.map (fun p => p.idempotencyKey) =
          (List.range' 1 r.trace.length).map
            (fun i => baseKey ++ "-" ++ toString i)
        ∧ r.attempts.map (fun a => a.attemptNumber) =
            List.range' 1 r.trace.length
        ∧ r.attempts.length = r.trace.length
        ∧ ∀ a ∈ r.attempts, a.status = "succeeded" ∨ a.status = "failed" := by
  intro fuel
  induction fuel with
  | zero =>
    intro st h1 h2 h3 h4 r hr
    rw [payLoopAux] at hr
    subst hr
    exact ⟨h1, h2, h3, h4⟩
  | succ fuel ih =>
    intro st h1 h2 h3 h4 r hr
    rw [payLoopAux] at hr
    simp only at hr
    cases hgw : gw ⟨st.currentRegion, st.currentRouterId,
        baseKey ++ "-" ++ toString (st.trace.length + 1)⟩ with
    | ok res =>
      simp only [hgw] at hr
      subst hr
      refine ⟨?_, ?_, ?_, ?_⟩
      · simp only [List.map_append, List.length_append, List.length_cons,
          List.length_nil, List.map_cons, List.map_nil]
        rw [h1, range'_one_concat]
        simp
      · simp only [List.map_append, List.length_append, List.length_cons,
          List.length_nil, List.map_cons, List.map_nil]
        rw [h2, range'_one_concat]
      · simp [h3]
      · intro a ha
        rcases List.mem_append.mp ha with hmem | hmem
        · exact h4 a hmem
        · left
          simp only [List.mem_singleton] at hmem
          rw [hmem]
    | err e =>
      simp only [hgw] at hr
      by_cases hnr : (match e.asGeoPay with
          | none => true
          | some g => !(isRetryableError g)) = true
      · rw [if_pos hnr] at hr
        subst hr
        refine ⟨?_, ?_, ?_, ?_⟩
        · simp only [List.map_append, List.length_append, List.length_cons,
            List.length_nil, List.map_cons, List.map_nil]
          rw [h1, range'_one_concat]
          simp
        · simp only [List.map_append, List.length_append, List.length_cons,
            List.length_nil, List.map_cons, List.map_nil]
          rw [h2, range'_one_concat]
        · simp [h3]
        · intro a ha
          rcases List.mem_append.mp ha with hmem | hmem
          · exact h4 a hmem
          · right
            simp only [List.mem_singleton] at hmem
            rw [hmem]
      · rw [if_neg hnr] at hr
        by_cases hfb : st.trace.length + 1 < maxAttempts ∧
            fallbackEnabled = true
        · rw [if_pos hfb] at hr
          cases hnf : getNextFallback decision
              (st.failedRegions ++ [st.currentRegion]) with
          | none =>
            simp only [hnf] at hr
            subst hr
            refine ⟨?_, ?_, ?_, ?_⟩
            · simp only [List.map_append, List.length_append,
                List.length_cons, List.length_nil, List.map_cons,
                List.map_nil]
              rw [h1, range'_one_concat]
              simp
            · simp only [List.map_append, List.length_append,
                List.length_cons, List.length_nil, List.map_cons,
                List.map_nil]
              rw [h2, range'_one_concat]
            · simp [h3]
            · intro a ha
              rcases List.mem_append.mp ha with hmem | hmem
              · exact h4 a hmem
              · right
                simp only [List.mem_singleton] at hmem
                rw [hmem]
          | some fb =>
            simp only [hnf] at hr
            refine ih ⟨fb.region, fb.routerId,
              st.failedRegions ++ [st.currentRegion],
              st.attempts ++ [⟨st.trace.length + 1, st.currentRegion,
                st.currentRouterId, "failed", e.asGeoPay⟩],
              st.trace ++ [⟨st.currentRegion, st.currentRouterId,
                baseKey ++ "-" ++ toString (st.trace.length + 1)⟩]⟩
              ?_ ?_ ?_ ?_ r ?_
            · simp only [List.map_append, List.length_append,
                List.length_cons, List.length_nil, List.map_cons,
                List.map_nil]
              rw [h1, range'_one_concat]
              simp
            · simp only [List.map_append, List.length_append,
                List.length_cons, List.length_nil, List.map_cons,
                List.map_nil]
              rw [h2, range'_one_concat]
            · simp [h3]
            · intro a ha
              rcases List.mem_append.mp ha with hmem | hmem
              · exact h4 a hmem
              · right
                simp only [List.mem_singleton] at hmem
                rw [hmem]
            · rw [hr]
              congr 1
              simp
        · rw [if_neg hfb] at hr
          subst hr
          refine ⟨?_, ?_, ?_, ?_⟩
          · simp only [List.map_append, List.length_append, List.length_cons,
              List.length_nil, List.map_cons, List.map_nil]
            rw [h1, range'_one_concat]
            simp
          · simp only [List.map_append, List.length_append, List.length_cons,
              List.length_nil, List.map_cons, List.map_nil]
            rw [h2, range'_one_concat]
          · simp [h3]
          · intro a ha
            rcases List.mem_append.mp ha with hmem | hmem
            · exact h4 a hmem
            · right
              simp only [List.mem_singleton] at hmem
              rw [hmem]

/-- C2 (amended): every gateway pay call the loop makes carries the
idempotency key formed by suffixing the base key with its 1-based attempt
number (`baseKey ++ "-" ++ i` for the i-th call), and exactly one
`PaymentAttempt` is recorded per gateway call, numbered to match, whether
the call succeeded or failed.  (The original claim's further assertion that
these calls are issued through the Circuit Breaker does not hold of the
source, which calls `layer403.executePayment` directly: see the
counterexample.) -/
theorem claim_C2 (gw : PayRequest → GwOutcome) (baseKey : String)
    (decision : RouteDecision) (fallbackEnabled : Bool) (maxTries : Nat)
    (noFallback : Bool) :
    (payExecute gw baseKey decision fallbackEnabled maxTries
        noFallback).trace.map (fun p => p.idempotencyKey) =
      (List.range' 1 (payExecute gw baseKey decision fallbackEnabled maxTries
        noFallback).trace.length).map (fun i => baseKey ++ "-" ++ toString i)
    ∧ (payExecute gw baseKey decision fallbackEnabled maxTries
        noFallback).attempts.map (fun a => a.attemptNumber) =
      List.range' 1 (payExecute gw baseKey decision fallbackEnabled maxTries
        noFallback).trace.length
    ∧ (payExecute gw baseKey decision fallbackEnabled maxTries
        noFallback).attempts.length =
      (payExecute gw baseKey decision fallbackEnabled maxTries
        noFallback).trace.length
    ∧ ∀ a ∈ (payExecute gw baseKey decision fallbackEnabled maxTries
        noFallback).attempts,
        a.status = "succeeded" ∨ a.status = "failed" := by
  exact payLoopAux_log gw baseKey decision fallbackEnabled
    (if noFallback then 1 else maxTries) (if noFallback then 1 else maxTries)
    ⟨decision.chosenRegion, decision.chosenRouterId, [], [], []⟩
    (by simp) (by simp) rfl (by simp)
    (payExecute gw baseKey decision fallbackEnabled maxTries noFallback) rfl

/-- C2 counterexample: the source loop does not route gateway pay calls
through a circuit breaker.  With the breaker protecting the gateway open
(opened at 10, reset timeout 30000ms, clock at 20), the spec-modelled
breaker-gated loop short-circuits and makes no gateway call, while the
source loop still issues one. -/
theorem claim_C2_counterexample :
    (payExecute (fun _ => .ok "pay_ok") "idem"
      ⟨"EU", "router_eu_1", []⟩ true 3 false).trace.length = 1
    ∧ (payExecuteSpecCB ⟨5, 30000, 3, 60000⟩
        ⟨.opened, [], 0, 5, some 10, none, some 10⟩ 20
        (fun _ => .ok "pay_ok") "idem"
        ⟨"EU", "router_eu_1", []⟩ true 3 false).trace.length = 0 := by
  exact ⟨rfl, rfl⟩

/-- C7 (amended): an attempt failing with an error that is not a retryable
`GeoPayException` aborts the fallback loop at once — exactly this one
gateway call extends the trace, the failed attempt is recorded in the
attempts log, and the error is rethrown to the caller *unchanged*; in
particular the propagated error carries no attempts log in its details.
(The original claim's assertion that the propagated error carries the
attempts log fails: see the counterexample.  Only the defensive
`INTERNAL_ERROR` raised after loop exhaustion embeds the attempts log.) -/
theorem claim_C7 (gw : PayRequest → GwOutcome) (baseKey : String)
    (decision : RouteDecision) (fallbackEnabled : Bool)
    (maxAttempts attempt fuel : Nat) (st : PayLoopState) (e : GwError)
    (hgw : gw ⟨st.currentRegion, st.currentRouterId,
        baseKey ++ "-" ++ toString attempt⟩ = .err e)
    (hnr : (match e.asGeoPay with
        | none => true
        | some g => !(isRetryableError g)) = true) :
    payLoopAux gw baseKey decision fallbackEnabled maxAttempts attempt
        (fuel + 1) st =
      ⟨.error (.fromGateway e),
        st.trace ++ [⟨st.currentRegion, st.currentRouterId,
          baseKey ++ "-" ++ toString attempt⟩],
        st.attempts ++ [⟨attempt, st.currentRegion, st.currentRouterId,
          "failed", e.asGeoPay⟩]⟩
    ∧ (PayError.fromGateway e).attemptsInDetails = none := by
  constructor
  · rw [payLoopAux]
    simp only [hgw]
    rw [if_pos hnr]
  · rfl

/-- Witness for C7: a `PAYMENT_DECLINED` (non-retryable) gateway error on
the first attempt, with fallback enabled, an available alternative on the
ranking, and two attempts of budget left — the loop still stops at one
gateway call. -/
theorem claim_C7_witness :
    let e : GwError := ⟨some ⟨"PAYMENT_DECLINED", false⟩⟩
    let gw : PayRequest → GwOutcome := fun _ => .err e
    let st : PayLoopState := ⟨"EU", "router_eu_1", [], [], []⟩
    gw ⟨"EU", "router_eu_1", "idem" ++ "-" ++ toString 1⟩ = .err e
    ∧ payLoopAux gw "idem" ⟨"EU", "router_eu_1", []⟩ true 3 1 3 st =
        ⟨.error (.fromGateway e),
          [⟨"EU", "router_eu_1", "idem" ++ "-" ++ toString 1⟩],
          [⟨1, "EU", "router_eu_1", "failed", some ⟨"PAYMENT_DECLINED",
            false⟩⟩]⟩
    ∧ (PayError.fromGateway e).attemptsInDetails = none := by
  intro e gw st
  have h := claim_C7 gw "idem" ⟨"EU", "router_eu_1", []⟩ true 3 1 2 st e rfl
    (by decide)
  exact ⟨rfl, h.1, h.2⟩

/-- C7 counterexample: the error `pay` propagates on a non-retryable
failure carries no attempts log in its details, while one attempt was
recorded: the original claim's "carries the attempts log" clause is false
on the code. -/
theorem claim_C7_counterexample :
    (payExecute (fun _ => .err ⟨some ⟨"PAYMENT_DECLINED", false⟩⟩)
        "idem" ⟨"EU", "router_eu_1", []⟩ true 3 false).result =
      .error (.fromGateway ⟨some ⟨"PAYMENT_DECLINED", false⟩⟩)
    ∧ (payExecute (fun _ => .err ⟨some ⟨"PAYMENT_DECLINED", false⟩⟩)
        "idem" ⟨"EU", "router_eu_1", []⟩ true 3 false).attempts.length = 1
    ∧ (PayError.fromGateway
        ⟨some ⟨"PAYMENT_DECLINED", false⟩⟩).attemptsInDetails = none := by
  exact ⟨rfl, rfl, rfl⟩

/-- C1 (amended): the replay guarantee holds of the Idempotency Guard, not
of `pay` itself: after `IdempotencyManager.execute(key, payload, fn)`
completed successfully, a second `execute` with the same key and identical
payload within the record TTL returns the cached response of the first call
and does not invoke the wrapped operation at all (`fnCalls = 0`).
(`GeoPaySwitch.pay` never consults the Idempotency Guard and performs a
gateway pay call on every invocation: see the counterexample.) -/
theorem claim_C1 {V π φ : Type} (hash : π → String) (cfg : IdemConfig)
    (key : String) (payload : π) (v : V) (fn₂ : Except φ V)
    (now₁ now₂ : Nat) (hlive : ¬ now₂ > now₁ + cfg.ttlMs) :
    (idemExecute hash cfg ([] : IdemStore V) key payload
        (.ok v : Except φ V) now₁).result = .ok v
    ∧ (idemExecute hash cfg ([] : IdemStore V) key payload
        (.ok v : Except φ V) now₁).fnCalls = 1
    ∧ (idemExecute hash cfg
        (idemExecute hash cfg ([] : IdemStore V) key payload
          (.ok v : Except φ V) now₁).store key payload fn₂ now₂).result =
      .ok v
    ∧ (idemExecute hash cfg
        (idemExecute hash cfg ([] : IdemStore V) key payload
          (.ok v : Except φ V) now₁).store key payload fn₂ now₂).fnCalls =
      0 := by
  have hlt : ¬ now₁ > now₁ + cfg.ttlMs := by omega
  have h1 : idemExecute hash cfg ([] : IdemStore V) key payload
      (.ok v : Except φ V) now₁ =
      ⟨.ok v,
        [(key, ⟨key, hash payload, some v, .completed, now₁, some now₁,
          now₁ + cfg.ttlMs, none⟩)], 1⟩ := by
    simp [idemExecute, idemCheck, idemStorageGet, idemStartProcessing,
      idemComplete, jsMapSet, hlt]
  have h2 : idemExecute hash cfg
      [(key, (⟨key, hash payload, some v, .completed, now₁, some now₁,
        now₁ + cfg.ttlMs, none⟩ : IdemRecord V))] key payload fn₂ now₂ =
      ⟨.ok v,
        [(key, ⟨key, hash payload, some v, .completed, now₁, some now₁,
          now₁ + cfg.ttlMs, none⟩)], 0⟩ := by
    simp [idemExecute, idemCheck, idemStorageGet, hlive]
  rw [h1]
  exact ⟨rfl, rfl, by rw [h2], by rw [h2]⟩

/-- Witness for C1: key `"pay_abc"`, payload `"payload"`, the identity
content hash, the first call completing with `"result"` at time 0, replayed
at time 5 against a 24h TTL. -/
theorem claim_C1_witness :
    let cfg : IdemConfig := { ttlMs := 86400000, lockTimeoutMs := 60000 }
    (¬ (5 : Nat) > 0 + cfg.ttlMs)
    ∧ (idemExecute (fun s : String => s) cfg ([] : IdemStore String)
        "pay_abc" "payload" (.ok "result" : Except String String) 0).fnCalls
        = 1
    ∧ (idemExecute (fun s : String => s) cfg
        (idemExecute (fun s : String => s) cfg ([] : IdemStore String)
          "pay_abc" "payload" (.ok "result" : Except String String) 0).store
        "pay_abc" "payload"
        (.error "must not run" : Except String String) 5).result =
      .ok "result"
    ∧ (idemExecute (fun s : String => s) cfg
        (idemExecute (fun s : String => s) cfg ([] : IdemStore String)
          "pay_abc" "payload" (.ok "result" : Except String String) 0).store
        "pay_abc" "payload"
        (.error "must not run" : Except String String) 5).fnCalls = 0 := by
  intro cfg
  have h := claim_C1 (fun s : String => s) cfg "pay_abc" "payload" "result"
    (.error "must not run" : Except String String) 0 5 (by decide)
  exact ⟨by decide, h.2.1, h.2.2.1, h.2.2.2⟩

/-- C1 counterexample: `pay` performs a gateway pay call on every
invocation — its trace is never empty, and it holds no idempotency state
between calls — so a second `pay` with the same idempotency key and payload
repeats the gateway payment call rather than returning a cached result
without one. -/
theorem claim_C1_counterexample :
    (payExecute (fun _ => .ok "pay_ok") "samekey"
        ⟨"EU", "router_eu_1", []⟩ true 3 false).trace.length = 1
    ∧ (payExecute (fun _ => .ok "pay_ok") "samekey"
        ⟨"EU", "router_eu_1", []⟩ true 3 false).trace ≠ [] := by
  refine ⟨rfl, by decide⟩

end GeoPay
